import Mathlib

/-!
Verification of `generate_random_dimensions` (src/generate_random_dimensions.py).

The Python function is embedded shallowly:

* Python `int` inputs become `Int` (so that the negative-input validation is
  expressible); once validation has established positivity the computation
  proceeds on `Nat`, matching the arithmetic of the source on its reachable
  domain (Python `//` and `%` agree with `Nat` division/modulo on nonnegative
  operands, `math.gcd` is `Nat.gcd`, `**` is `Nat.pow`).
* the random source `rng` is modelled as a supply of seeds (`List Nat`);
  `rng.randint a b` consumes one seed `s` and yields `a + s % (b - a + 1)`
  (every value of `[a, b]` is reachable), and `rng.shuffle` consumes one seed
  and applies the permutation indexed by that seed in factorial base
  (every permutation of the list is reachable, and for a list of length `n`
  the seeds `0, ..., n! - 1` index each permutation exactly once).
* `raise ValueError(msg)` becomes the value `Except.error msg`; a normal
  return of a tuple becomes `Except.ok` of the list of entries.  The function
  returns the final state of the seed supply alongside, so that consumption
  of randomness is observable.
* the memo dictionary `_memo` of `_find_factors` is an association list
  threaded through the search.
-/

/-- A random source: the supply of seeds that will be consumed. -/
abbrev Rng := List Nat

/-- Consume one seed from the supply (an exhausted supply yields `0`,
which is harmless: every theorem below quantifies over all supplies). -/
def takeSeed : Rng → Nat × Rng
  | [] => (0, [])
  | s :: rest => (s, rest)

/-- Model of `rng.randint(low, high)`: one seed picks a value of
`[low, high]` (inclusive on both ends, like Python's `randint`). -/
def randint (low high : Nat) (rng : Rng) : Nat × Rng :=
  (low + (takeSeed rng).1 % (high - low + 1), (takeSeed rng).2)

/-- `n` successive draws of `rng.randint(low, high)`, in order. -/
def randList (low high : Nat) : Nat → Rng → List Nat × Rng
  | 0, rng => ([], rng)
  | n + 1, rng =>
    ((randint low high rng).1 :: (randList low high n (randint low high rng).2).1,
      (randList low high n (randint low high rng).2).2)

/-- Remove the element at position `i`; returns that element and the rest. -/
def removeNth : Nat → List Nat → Option (Nat × List Nat)
  | _, [] => none
  | 0, x :: xs => some (x, xs)
  | n + 1, x :: xs =>
    match removeNth n xs with
    | none => none
    | some (y, rest) => some (y, x :: rest)

/-- The permutation of a list indexed by `s` in factorial base: repeatedly
extract the element at position `s % len`, continuing with `s / len`.
The first argument is fuel, instantiated with the length of the list. -/
def permOfIndexAux : Nat → Nat → List Nat → List Nat
  | 0, _, _ => []
  | _ + 1, _, [] => []
  | fuel + 1, s, x :: xs =>
    match removeNth (s % (xs.length + 1)) (x :: xs) with
    | some (y, rest) => y :: permOfIndexAux fuel (s / (xs.length + 1)) rest
    | none => x :: xs

def permOfIndex (s : Nat) (l : List Nat) : List Nat :=
  permOfIndexAux l.length s l

/-- Model of `rng.shuffle(l)`: one seed selects the permutation. -/
def shuffle (l : List Nat) (rng : Rng) : List Nat × Rng :=
  (permOfIndex (takeSeed rng).1 l, (takeSeed rng).2)

/-- `_gcd_of_list` of the source: left fold of `math.gcd` from `0`. -/
def gcd_of_list (values : List Nat) : Nat :=
  values.foldl Nat.gcd 0

/-- The memo dictionary of `_find_factors`, keyed on `(product, dims_left)`. -/
abbrev Memo := List ((Nat × Nat) × Option (List Nat))

def memoLookup (key : Nat × Nat) : Memo → Option (Option (List Nat))
  | [] => none
  | (k, v) :: rest => if key = k then some v else memoLookup key rest

def memoInsert (key : Nat × Nat) (val : Option (List Nat)) (m : Memo) : Memo :=
  (key, val) :: m

/-- Line 158 of the source: the admissible numbers of `[low, high]` that
divide `product`, in increasing order (before the shuffle). -/
def divisorCandidates (low high product : Nat) : List Nat :=
  (List.range' low (high + 1 - low)).filter (fun d => product % d == 0)

/-- The `for d in possible` loop of `_find_factors`: try each divisor in
order, returning the first success of the continuation `f`. -/
def tryDivs (f : Nat → Memo → Rng → Option (List Nat) × Memo × Rng) :
    List Nat → Memo → Rng → Option (List Nat) × Memo × Rng
  | [], m, r => (none, m, r)
  | d :: rest, m, r =>
    match f d m r with
    | (some sub, m1, r1) => (some (d :: sub), m1, r1)
    | (none, m1, r1) => tryDivs f rest m1 r1

/-- `_find_factors(product, dims_left, low, high)` of the source, with the
memo and the random source threaded explicitly.  `dims_left` is the
recursion argument; the source never calls it with `dims_left = 0`
(both call sites pass at least `1`), so that case is given the inert
value `none`. -/
def find_factors (low high : Nat) : Nat → Nat → Memo → Rng → Option (List Nat) × Memo × Rng
  | 0, _, m, r => (none, m, r)
  | 1, product, m, r =>
    match memoLookup (product, 1) m with
    | some res => (res, m, r)
    | none =>
      if low ≤ product ∧ product ≤ high then (some [product], m, r)
      else (none, memoInsert (product, 1) none m, r)
  | k + 2, product, m, r =>
    match memoLookup (product, k + 2) m with
    | some res => (res, m, r)
    | none =>
      if product < low ^ (k + 2) ∨ product > high ^ (k + 2) then
        (none, memoInsert (product, k + 2) none m, r)
      else
        match
          tryDivs (fun d m' r' => find_factors low high (k + 1) (product / d) m' r')
            (shuffle (divisorCandidates low high product) r).1 m
            (shuffle (divisorCandidates low high product) r).2 with
        | (some sol, m2, r2) => (some sol, memoInsert (product, k + 2) (some sol) m2, r2)
        | (none, m2, r2) => (none, memoInsert (product, k + 2) none m2, r2)

/-- The `for _ in range(RETRIES)` loop of scenario 4a: draw the scaled
values, accept when their gcd is `1`, give up when the retries are
exhausted. -/
def retryLoop (g kmin kmax n : Nat) : Nat → Rng → Except String (List Nat) × Rng
  | 0, rng => (.error "Unable to construct shape satisfying the gcd constraint", rng)
  | fuel + 1, rng =>
    if gcd_of_list (1 :: (randList kmin kmax (n - 1) rng).1) = 1 then
      (.ok (shuffle ((1 :: (randList kmin kmax (n - 1) rng).1).map (fun k => g * k))
              (randList kmin kmax (n - 1) rng).2).1,
        (shuffle ((1 :: (randList kmin kmax (n - 1) rng).1).map (fun k => g * k))
              (randList kmin kmax (n - 1) rng).2).2)
    else retryLoop g kmin kmax n fuel (randList kmin kmax (n - 1) rng).2

/-- Section 4 of the source (`gcd_constraint` given), after validation,
on the positive values. -/
def scenarioGcd (n low high g : Nat) (te : Option Nat) (rng : Rng) :
    Except String (List Nat) × Rng :=
  if ¬ (low ≤ g ∧ g ≤ high) then
    (.error "At least one dimension must be able to equal gcd_constraint", rng)
  else
    if (low + g - 1) / g > high / g then
      (.error "No multiple of gcd_constraint fits into size bounds", rng)
    else
      match te with
      | none =>
        if n = 1 then (.ok [g], rng)
        else if (low + g - 1) / g > 1 then
          (.error "Size bounds prevent any dimension equalling the gcd", rng)
        else retryLoop g ((low + g - 1) / g) (high / g) n 1000 rng
      | some t =>
        if t % g ^ n ≠ 0 then
          (.error "total_elements must be divisible by gcd_constraint ** num_dimensions", rng)
        else
          if n = 1 then
            if t / g ^ n ≠ 1 then
              (.error "No valid single-dimension shape exists for the given product and gcd", rng)
            else (.ok [g], rng)
          else if (low + g - 1) / g > 1 then
            (.error "Size bounds prevent any dimension equalling the gcd", rng)
          else
            match find_factors ((low + g - 1) / g) (high / g) (n - 1) (t / g ^ n) [] rng with
            | (some fs, _, r1) =>
              (.ok (shuffle ((1 :: fs).map (fun k => g * k)) r1).1,
                (shuffle ((1 :: fs).map (fun k => g * k)) r1).2)
            | (none, _, r1) =>
              (.error "No shape satisfies the combined product/gcd constraints", r1)

/-- Section 5 of the source (`total_elements` given, no `gcd_constraint`). -/
def scenarioTotal (n low high t : Nat) (rng : Rng) :
    Except String (List Nat) × Rng :=
  if n = 1 then
    if low ≤ t ∧ t ≤ high then (.ok [t], rng)
    else (.error "total_elements is outside the admissible size bounds for 1D", rng)
  else if t < low ^ n ∨ t > high ^ n then
    (.error "total_elements cannot be realised with the given size bounds", rng)
  else
    match find_factors low high n t [] rng with
    | (some fs, _, r1) => (.ok (shuffle fs r1).1, (shuffle fs r1).2)
    | (none, _, r1) =>
      (.error "No shape satisfies the given total_elements and size bounds", r1)

/-- Is the option a value `< 1`?  (`x is not None and x < 1` of the source.) -/
def optLt1 : Option Int → Bool
  | none => false
  | some t => decide (t < 1)

/-- Is the option a value `≠ 1`?  (`x is not None and x != 1` of the source.) -/
def optNe1 : Option Nat → Bool
  | none => false
  | some t => decide (t ≠ 1)

/-- Sections 1-5 of the source, after validation, on the positive values. -/
def generateCore (n low high : Nat) (te gc : Option Nat) (rng : Rng) :
    Except String (List Nat) × Rng :=
  if n = 0 then
    if optNe1 te then
      (.error "total_elements must be 1 when num_dimensions is 0", rng)
    else if gc.isSome then
      (.error "gcd_constraint makes no sense for 0 dimensions", rng)
    else (.ok [], rng)
  else
    match te, gc with
    | none, none =>
      (.ok (randList low high n rng).1, (randList low high n rng).2)
    | te, some g => scenarioGcd n low high g te rng
    | some t, none => scenarioTotal n low high t rng

/-- `generate_random_dimensions` of the source. -/
def generate_random_dimensions (num_dimensions min_size max_size : Int)
    (total_elements gcd_constraint : Option Int) (rng : Rng) :
    Except String (List Nat) × Rng :=
  if num_dimensions < 0 then (.error "num_dimensions cannot be negative", rng)
  else if min_size < 1 then (.error "min_size must be at least 1", rng)
  else if max_size < min_size then (.error "max_size must be >= min_size", rng)
  else if optLt1 total_elements then (.error "total_elements must be at least 1", rng)
  else if optLt1 gcd_constraint then (.error "gcd_constraint must be at least 1", rng)
  else
    generateCore num_dimensions.toNat min_size.toNat max_size.toNat
      (total_elements.map Int.toNat) (gcd_constraint.map Int.toNat) rng

/-- Specification predicate: `l` is a shape of `k` dimensions with entries
in `[low, high]` and product `p`. -/
def IsShape (low high k p : Nat) (l : List Nat) : Prop :=
  l.length = k ∧ (∀ v ∈ l, low ≤ v ∧ v ≤ high) ∧ l.prod = p

instance (low high k p : Nat) (l : List Nat) : Decidable (IsShape low high k p l) := by
  unfold IsShape; infer_instance

/-- All seed traces `[a, b, c]` with `a, b < 24` and `c < 6`, indexed by the
mixed-radix digits of `i < 3456`.  For the run of
`generate_random_dimensions 3 1 8 (some 8) none` exactly three seeds are
consumed: two shuffles inside `_find_factors` (over divisor lists of length
at most 4, and `k!` divides `24` for `k ≤ 4`, so a seed uniform on
`0, ..., 23` induces the uniform shuffle of Python's `random.shuffle`) and
the final shuffle of the 3-element result (`3! = 6`, and `c < 6` indexes each
permutation once).  The traces are therefore equally likely, and the number
of traces mapping to an output is proportional to that output's
probability. -/
def c4Space : List Rng :=
  (List.range 3456).map (fun i => [i % 24, (i / 24) % 24, i / 576])

/-- The shape returned by `generate_random_dimensions 3 1 8 (some 8) none`
on a given seed trace (this input never raises). -/
def c4Outcome (r : Rng) : List Nat :=
  match (generate_random_dimensions 3 1 8 (some 8) none r).1 with
  | .ok l => l
  | .error _ => []

/-! ### Basic facts about the random-source model -/

theorem randint_bounds (low high : Nat) (h : low ≤ high) (rng : Rng) :
    low ≤ (randint low high rng).1 ∧ (randint low high rng).1 ≤ high := by
  unfold randint
  have hm : (takeSeed rng).1 % (high - low + 1) < high - low + 1 :=
    Nat.mod_lt _ (by omega)
  constructor
  · exact Nat.le_add_right _ _
  · simp only
    omega

theorem randList_length (low high : Nat) : ∀ (n : Nat) (rng : Rng),
    (randList low high n rng).1.length = n := by
  intro n
  induction n with
  | zero => intro rng; rfl
  | succ k ih => intro rng; simp [randList, ih]

theorem randList_bounds (low high : Nat) (h : low ≤ high) : ∀ (n : Nat) (rng : Rng),
    ∀ v ∈ (randList low high n rng).1, low ≤ v ∧ v ≤ high := by
  intro n
  induction n with
  | zero => intro rng v hv; simp [randList] at hv
  | succ k ih =>
    intro rng v hv
    simp only [randList, List.mem_cons] at hv
    rcases hv with rfl | hv
    · exact randint_bounds low high h rng
    · exact ih _ v hv

theorem removeNth_perm : ∀ (n : Nat) (l : List Nat) (y : Nat) (rest : List Nat),
    removeNth n l = some (y, rest) → l.Perm (y :: rest) := by
  intro n
  induction n with
  | zero =>
    intro l y rest h
    match l with
    | [] => simp [removeNth] at h
    | x :: xs =>
      simp only [removeNth, Option.some.injEq, Prod.mk.injEq] at h
      obtain ⟨rfl, rfl⟩ := h
      exact List.Perm.refl _
  | succ k ih =>
    intro l y rest h
    match l with
    | [] => simp [removeNth] at h
    | x :: xs =>
      simp only [removeNth] at h
      cases hr : removeNth k xs with
      | none => rw [hr] at h; simp at h
      | some p =>
        obtain ⟨y0, rest0⟩ := p
        rw [hr] at h
        simp only [Option.some.injEq, Prod.mk.injEq] at h
        obtain ⟨rfl, rfl⟩ := h
        have hp := ih xs y0 rest0 hr
        exact (hp.cons x).trans (List.Perm.swap y0 x rest0)

theorem removeNth_isSome : ∀ (n : Nat) (l : List Nat), n < l.length →
    ∃ y rest, removeNth n l = some (y, rest) := by
  intro n
  induction n with
  | zero =>
    intro l hl
    match l with
    | [] => simp at hl
    | x :: xs => exact ⟨x, xs, rfl⟩
  | succ k ih =>
    intro l hl
    match l with
    | [] => simp at hl
    | x :: xs =>
      simp only [List.length_cons, Nat.succ_lt_succ_iff] at hl
      obtain ⟨y, rest, hr⟩ := ih xs hl
      exact ⟨y, x :: rest, by simp [removeNth, hr]⟩

theorem permOfIndexAux_perm : ∀ (fuel : Nat) (s : Nat) (l : List Nat), l.length ≤ fuel →
    (permOfIndexAux fuel s l).Perm l := by
  intro fuel
  induction fuel with
  | zero =>
    intro s l hl
    have : l = [] := List.eq_nil_of_length_eq_zero (by omega)
    subst this
    exact List.Perm.refl _
  | succ k ih =>
    intro s l hl
    match l with
    | [] => exact List.Perm.refl _
    | x :: xs =>
      have hidx : s % (xs.length + 1) < (x :: xs).length := by
        simp only [List.length_cons]
        exact Nat.mod_lt _ (by omega)
      obtain ⟨y, rest, hr⟩ := removeNth_isSome _ _ hidx
      have hperm := removeNth_perm _ _ _ _ hr
      have hrest : rest.length ≤ k := by
        have := hperm.length_eq
        simp only [List.length_cons] at this hl
        omega
      simp only [permOfIndexAux, hr]
      exact ((ih _ rest hrest).cons y).trans hperm.symm

theorem permOfIndex_perm (s : Nat) (l : List Nat) : (permOfIndex s l).Perm l :=
  permOfIndexAux_perm _ _ _ le_rfl

theorem shuffle_perm (l : List Nat) (rng : Rng) : (shuffle l rng).1.Perm l :=
  permOfIndex_perm _ _

/-! ### Facts about `_gcd_of_list` and products -/

theorem foldl_gcd_eq (a : Nat) (l : List Nat) :
    l.foldl Nat.gcd a = Nat.gcd a (l.foldl Nat.gcd 0) := by
  induction l generalizing a with
  | nil => simp [Nat.gcd_zero_right]
  | cons x xs ih =>
    simp only [List.foldl]
    rw [ih (Nat.gcd a x), ih (Nat.gcd 0 x), Nat.gcd_zero_left, Nat.gcd_assoc]

theorem gcd_of_list_cons (x : Nat) (l : List Nat) :
    gcd_of_list (x :: l) = Nat.gcd x (gcd_of_list l) := by
  show List.foldl Nat.gcd (Nat.gcd 0 x) l = Nat.gcd x (List.foldl Nat.gcd 0 l)
  rw [Nat.gcd_zero_left]
  exact foldl_gcd_eq x l

theorem gcd_of_list_perm {l₁ l₂ : List Nat} (h : l₁.Perm l₂) :
    gcd_of_list l₁ = gcd_of_list l₂ := by
  induction h with
  | nil => rfl
  | cons x _ ih => rw [gcd_of_list_cons, gcd_of_list_cons, ih]
  | swap x y l =>
    rw [gcd_of_list_cons, gcd_of_list_cons, gcd_of_list_cons, gcd_of_list_cons,
      ← Nat.gcd_assoc, ← Nat.gcd_assoc, Nat.gcd_comm y x]
  | trans _ _ ih1 ih2 => rw [ih1, ih2]

theorem gcd_of_list_map_mul (g : Nat) (l : List Nat) :
    gcd_of_list (l.map (fun k => g * k)) = g * gcd_of_list l := by
  induction l with
  | nil => simp [gcd_of_list]
  | cons x xs ih =>
    simp only [List.map_cons]
    rw [gcd_of_list_cons, gcd_of_list_cons, ih, Nat.gcd_mul_left]

theorem gcd_of_list_one_cons (l : List Nat) : gcd_of_list (1 :: l) = 1 := by
  rw [gcd_of_list_cons, Nat.gcd_one_left]

theorem prod_map_mul_const (g : Nat) (l : List Nat) :
    (l.map (fun k => g * k)).prod = g ^ l.length * l.prod := by
  induction l with
  | nil => simp
  | cons x xs ih =>
    simp only [List.map_cons, List.prod_cons, List.length_cons, ih, pow_succ]
    ring

theorem prod_bounds (low high : Nat) : ∀ (l : List Nat),
    (∀ v ∈ l, low ≤ v ∧ v ≤ high) →
    low ^ l.length ≤ l.prod ∧ l.prod ≤ high ^ l.length := by
  intro l
  induction l with
  | nil => intro _; simp
  | cons x xs ih =>
    intro hb
    have hx := hb x (List.mem_cons_self _ _)
    have hxs := ih (fun v hv => hb v (List.mem_cons_of_mem _ hv))
    simp only [List.prod_cons, List.length_cons, pow_succ]
    constructor
    · calc low ^ xs.length * low ≤ xs.prod * x :=
            Nat.mul_le_mul hxs.1 hx.1
        _ = x * xs.prod := Nat.mul_comm _ _
    · calc x * xs.prod ≤ high * high ^ xs.length := Nat.mul_le_mul hx.2 hxs.2
        _ = high ^ xs.length * high := Nat.mul_comm _ _

/-! ### Arithmetic of the scaled bounds in the gcd branch -/

theorem kmin_eq_one {low g : Nat} (h1 : 1 ≤ low) (h2 : low ≤ g) :
    (low + g - 1) / g = 1 := by
  apply Nat.div_eq_of_lt_le
  · omega
  · omega

theorem one_le_kmax {g high : Nat} (h1 : 1 ≤ g) (h2 : g ≤ high) : 1 ≤ high / g :=
  (Nat.one_le_div_iff (by omega)).mpr h2

theorem mul_kmax_le {g high : Nat} : g * (high / g) ≤ high := by
  rw [Nat.mul_comm]
  exact Nat.div_mul_le_self _ _

/-! ### Shape predicate under permutation -/

theorem IsShape_of_perm {low high k p : Nat} {l l' : List Nat}
    (h : IsShape low high k p l) (hp : l'.Perm l) : IsShape low high k p l' := by
  obtain ⟨h1, h2, h3⟩ := h
  exact ⟨hp.length_eq.trans h1, fun v hv => h2 v (hp.mem_iff.mp hv), hp.prod_eq.trans h3⟩

/-! ### Correctness of the memoized divisor search -/

theorem mem_divisorCandidates {low high p d : Nat} :
    d ∈ divisorCandidates low high p ↔ low ≤ d ∧ d ≤ high ∧ p % d = 0 := by
  unfold divisorCandidates
  simp only [List.mem_filter, List.mem_range'_1, beq_iff_eq]
  constructor
  · rintro ⟨⟨h1, h2⟩, h3⟩
    exact ⟨h1, by omega, h3⟩
  · rintro ⟨h1, h2, h3⟩
    exact ⟨⟨h1, by omega⟩, h3⟩

/-- What a stored or returned search result must satisfy: `none` certifies
that no shape exists for the subproblem, `some l` exhibits one. -/
def GoodRes (low high k p : Nat) : Option (List Nat) → Prop
  | none => ¬ ∃ l, IsShape low high k p l
  | some l => IsShape low high k p l

/-- Every entry of the memo (for positive `dims_left`) is a correct
verdict about its subproblem. -/
def MemoOK (low high : Nat) (m : Memo) : Prop :=
  ∀ p k res, memoLookup (p, k) m = some res → 1 ≤ k → GoodRes low high k p res

theorem MemoOK_nil (low high : Nat) : MemoOK low high [] := by
  intro p k res h
  simp [memoLookup] at h

theorem MemoOK_insert {low high : Nat} {m : Memo} (hm : MemoOK low high m)
    {p k : Nat} {res : Option (List Nat)} (hres : 1 ≤ k → GoodRes low high k p res) :
    MemoOK low high (memoInsert (p, k) res m) := by
  intro p' k' res' hl hk
  simp only [memoInsert, memoLookup] at hl
  split at hl
  · next heq =>
    injection heq with hp hkk
    subst hp hkk
    injection hl with hres'
    subst hres'
    exact hres hk
  · next hne => exact hm _ _ _ hl hk

theorem tryDivs_spec (low high p kk : Nat) (_hlow : 1 ≤ low)
    (f : Nat → Memo → Rng → Option (List Nat) × Memo × Rng)
    (hf : ∀ d m r, MemoOK low high m →
      MemoOK low high (f d m r).2.1 ∧ GoodRes low high kk (p / d) (f d m r).1) :
    ∀ (ds : List Nat) (m : Memo) (r : Rng), MemoOK low high m →
      (∀ d ∈ ds, low ≤ d ∧ d ≤ high ∧ d ∣ p) →
      MemoOK low high (tryDivs f ds m r).2.1 ∧
      ((tryDivs f ds m r).1 = none → ∀ d ∈ ds, ¬ ∃ s, IsShape low high kk (p / d) s) ∧
      (∀ l, (tryDivs f ds m r).1 = some l → IsShape low high (kk + 1) p l) := by
  intro ds
  induction ds with
  | nil =>
    intro m r hm _
    refine ⟨hm, ?_, ?_⟩
    · intro _ d hd
      simp at hd
    · intro l hl
      simp [tryDivs] at hl
  | cons d rest ih =>
    intro m r hm hds
    obtain ⟨hdlow, hdhigh, hddvd⟩ := hds d (List.mem_cons_self _ _)
    obtain ⟨hm1, hg1⟩ := hf d m r hm
    rcases hfd : f d m r with ⟨res, m1, r1⟩
    rw [hfd] at hm1 hg1
    simp only at hm1 hg1
    cases res with
    | some sub =>
      simp only [GoodRes] at hg1
      obtain ⟨hsl, hsb, hsp⟩ := hg1
      simp only [tryDivs, hfd]
      refine ⟨hm1, ?_, ?_⟩
      · intro h
        simp at h
      · intro l hl
        injection hl with hl
        subst hl
        refine ⟨by simp [hsl], ?_, ?_⟩
        · intro v hv
          rcases List.mem_cons.mp hv with rfl | hv
          · exact ⟨hdlow, hdhigh⟩
          · exact hsb v hv
        · simp only [List.prod_cons, hsp]
          exact Nat.mul_div_cancel' hddvd
    | none =>
      simp only [GoodRes] at hg1
      simp only [tryDivs, hfd]
      obtain ⟨hI1, hI2, hI3⟩ :=
        ih m1 r1 hm1 (fun d' hd' => hds d' (List.mem_cons_of_mem _ hd'))
      refine ⟨hI1, ?_, hI3⟩
      intro h d' hd'
      rcases List.mem_cons.mp hd' with rfl | hd'
      · exact hg1
      · exact hI2 h d' hd'

theorem find_factors_spec (low high : Nat) (hlow : 1 ≤ low) :
    ∀ (dl p : Nat) (m : Memo) (r : Rng), 1 ≤ dl → MemoOK low high m →
      MemoOK low high (find_factors low high dl p m r).2.1 ∧
      GoodRes low high dl p (find_factors low high dl p m r).1 := by
  intro dl
  induction dl with
  | zero => intro p m r h; exact absurd h (by omega)
  | succ k ih =>
    intro p m r _ hm
    cases k with
    | zero =>
      show MemoOK low high (find_factors low high 1 p m r).2.1 ∧
        GoodRes low high 1 p (find_factors low high 1 p m r).1
      simp only [find_factors]
      cases hmm : memoLookup (p, 1) m with
      | some res =>
        simp only
        exact ⟨hm, hm _ _ _ hmm (by omega)⟩
      | none =>
        simp only
        split
        · next hcond =>
          refine ⟨hm, ?_⟩
          show IsShape low high 1 p [p]
          refine ⟨rfl, ?_, by simp⟩
          intro v hv
          simp only [List.mem_singleton] at hv
          subst hv
          exact hcond
        · next hcond =>
          have hno : ¬ ∃ l, IsShape low high 1 p l := by
            rintro ⟨l, hl1, hl2, hl3⟩
            match l, hl1 with
            | [v], _ =>
              simp only [List.prod_cons, List.prod_nil, Nat.mul_one] at hl3
              subst hl3
              exact hcond (hl2 _ (List.mem_singleton_self _))
          exact ⟨MemoOK_insert hm (fun _ => hno), hno⟩
    | succ j =>
      show MemoOK low high (find_factors low high (j + 2) p m r).2.1 ∧
        GoodRes low high (j + 2) p (find_factors low high (j + 2) p m r).1
      simp only [find_factors]
      cases hmm : memoLookup (p, j + 2) m with
      | some res =>
        simp only
        exact ⟨hm, hm _ _ _ hmm (by omega)⟩
      | none =>
        simp only
        split
        · next hprune =>
          have hno : ¬ ∃ l, IsShape low high (j + 2) p l := by
            rintro ⟨l, hl1, hl2, hl3⟩
            have hb := prod_bounds low high l hl2
            rw [hl1, hl3] at hb
            omega
          exact ⟨MemoOK_insert hm (fun _ => hno), hno⟩
        · next hprune =>
          have hf : ∀ d m' r', MemoOK low high m' →
              MemoOK low high (find_factors low high (j + 1) (p / d) m' r').2.1 ∧
              GoodRes low high (j + 1) (p / d) (find_factors low high (j + 1) (p / d) m' r').1 :=
            fun d m' r' hm' => ih (p / d) m' r' (by omega) hm'
          have hds : ∀ d ∈ (shuffle (divisorCandidates low high p) r).1,
              low ≤ d ∧ d ≤ high ∧ d ∣ p := by
            intro d hd
            have hmem : d ∈ divisorCandidates low high p :=
              (shuffle_perm _ _).mem_iff.mp hd
            rw [mem_divisorCandidates] at hmem
            exact ⟨hmem.1, hmem.2.1, Nat.dvd_of_mod_eq_zero hmem.2.2⟩
          obtain ⟨hT1, hT2, hT3⟩ :=
            tryDivs_spec low high p (j + 1) hlow _ hf
              (shuffle (divisorCandidates low high p) r).1 m
              (shuffle (divisorCandidates low high p) r).2 hm hds
          rcases hTd : tryDivs (fun d m' r' => find_factors low high (j + 1) (p / d) m' r')
              (shuffle (divisorCandidates low high p) r).1 m
              (shuffle (divisorCandidates low high p) r).2 with ⟨tres, m2, r2⟩
          rw [hTd] at hT1 hT2 hT3
          simp only at hT1 hT2 hT3
          cases tres with
          | some sol =>
            simp only
            exact ⟨MemoOK_insert hT1 (fun _ => hT3 sol rfl), hT3 sol rfl⟩
          | none =>
            simp only
            have hno : ¬ ∃ l, IsShape low high (j + 2) p l := by
              rintro ⟨l, hl1, hl2, hl3⟩
              match l, hl1 with
              | v :: vs, hl1 =>
                have hvb := hl2 v (List.mem_cons_self _ _)
                have hvdvd : v ∣ p := ⟨vs.prod, by
                  rw [← hl3]; simp [List.prod_cons]⟩
                have hvmem : v ∈ (shuffle (divisorCandidates low high p) r).1 := by
                  apply (shuffle_perm _ _).mem_iff.mpr
                  rw [mem_divisorCandidates]
                  exact ⟨hvb.1, hvb.2, Nat.mod_eq_zero_of_dvd hvdvd⟩
                have hvs : IsShape low high (j + 1) (p / v) vs := by
                  refine ⟨by simpa using hl1, fun w hw => hl2 w (List.mem_cons_of_mem _ hw), ?_⟩
                  have hvpos : 0 < v := by
                    have := hvb.1
                    omega
                  rw [← hl3]
                  simp only [List.prod_cons]
                  exact (Nat.mul_div_cancel_left _ hvpos).symm
                exact hT2 rfl v hvmem ⟨vs, hvs⟩
            exact ⟨MemoOK_insert hT1 (fun _ => hno), hno⟩

/-! ### The retry loop of scenario 4a always succeeds immediately -/

theorem retryLoop_succ_eq (g kmin kmax n fuel : Nat) (rng : Rng) :
    retryLoop g kmin kmax n (fuel + 1) rng =
      (.ok (shuffle ((1 :: (randList kmin kmax (n - 1) rng).1).map (fun k => g * k))
              (randList kmin kmax (n - 1) rng).2).1,
        (shuffle ((1 :: (randList kmin kmax (n - 1) rng).1).map (fun k => g * k))
              (randList kmin kmax (n - 1) rng).2).2) := by
  simp [retryLoop, gcd_of_list_one_cons]

theorem retryLoop_first_iteration (g kmin kmax n fuel : Nat) (rng : Rng) :
    retryLoop g kmin kmax n (fuel + 1) rng = retryLoop g kmin kmax n 1 rng := by
  rw [retryLoop_succ_eq]
  rw [show (1 : Nat) = 0 + 1 from rfl, retryLoop_succ_eq]

theorem retryLoop_ok (g kmin kmax n fuel : Nat) (rng rng' : Rng) (l : List Nat)
    (h : retryLoop g kmin kmax n (fuel + 1) rng = (.ok l, rng')) :
    l.Perm ((1 :: (randList kmin kmax (n - 1) rng).1).map (fun k => g * k)) := by
  rw [retryLoop_succ_eq] at h
  have hl : (shuffle ((1 :: (randList kmin kmax (n - 1) rng).1).map (fun k => g * k))
      (randList kmin kmax (n - 1) rng).2).1 = l := by
    have := congrArg Prod.fst h
    simpa using this
  rw [← hl]
  exact shuffle_perm _ _

/-! ### What a successful run of each scenario returns -/

theorem scenarioTotal_ok (n low high t : Nat) (rng rng' : Rng) (l : List Nat)
    (hlow : 1 ≤ low) (hn : 1 ≤ n)
    (h : scenarioTotal n low high t rng = (.ok l, rng')) :
    l.length = n ∧ (∀ v ∈ l, low ≤ v ∧ v ≤ high) ∧ l.prod = t := by
  unfold scenarioTotal at h
  split at h
  · next hn1 =>
    split at h
    · next hbnd =>
      have hl : l = [t] := by
        have := congrArg Prod.fst h
        simpa using this.symm
      subst hl
      refine ⟨by simp [hn1], ?_, by simp⟩
      intro v hv
      simp only [List.mem_singleton] at hv
      subst hv
      exact hbnd
    · simp at h
  next hn1 =>
    split at h
    · simp at h
    next hbnd =>
      rcases hff : find_factors low high n t [] rng with ⟨fres, m2, r2⟩
      rw [hff] at h
      cases fres with
      | none => simp at h
      | some fs =>
        simp only at h
        have hl : l = (shuffle fs r2).1 := by
          have := congrArg Prod.fst h
          simpa using this.symm
        have hspec := (find_factors_spec low high hlow n t [] rng hn (MemoOK_nil _ _)).2
        rw [hff] at hspec
        simp only [GoodRes] at hspec
        have hperm : l.Perm fs := by
          rw [hl]
          exact shuffle_perm _ _
        exact IsShape_of_perm hspec hperm

theorem scenarioGcd_ok (n low high g : Nat) (te : Option Nat) (rng rng' : Rng) (l : List Nat)
    (hlow : 1 ≤ low) (hn : 1 ≤ n)
    (h : scenarioGcd n low high g te rng = (.ok l, rng')) :
    l.length = n ∧ (∀ v ∈ l, low ≤ v ∧ v ≤ high) ∧
    (∀ t, te = some t → l.prod = t) ∧
    (gcd_of_list l = g ∧ (∀ v ∈ l, g ∣ v) ∧ g ∈ l) := by
  unfold scenarioGcd at h
  split at h
  · simp at h
  next hg =>
  rw [not_not] at hg
  have hkmin : (low + g - 1) / g = 1 := kmin_eq_one hlow hg.1
  have hkmax : 1 ≤ high / g := one_le_kmax (by omega) hg.2
  split at h
  · simp at h
  next hkk =>
  have hmul_le : ∀ k, k ≤ high / g → g * k ≤ high := by
    intro k hk
    calc g * k ≤ g * (high / g) := Nat.mul_le_mul_left _ hk
      _ ≤ high := mul_kmax_le
  cases te with
  | none =>
    -- reduce the match on `te`
    split at h
    case _ =>
      split at h
      · next hn1 =>
        have hl : l = [g] := by
          have := congrArg Prod.fst h
          simpa using this.symm
        subst hl
        refine ⟨by simp [hn1], ?_, ?_, ?_, ?_, ?_⟩
        · intro v hv
          simp only [List.mem_singleton] at hv
          subst hv
          exact hg
        · intro t ht
          simp at ht
        · rw [gcd_of_list_cons]
          simp [gcd_of_list, Nat.gcd_zero_right]
        · intro v hv
          simp only [List.mem_singleton] at hv
          subst hv
          exact dvd_rfl
        · simp
      next hn1 =>
        split at h
        · simp at h
        next hk1 =>
          rw [show (1000 : Nat) = 999 + 1 from rfl] at h
          have hperm := retryLoop_ok _ _ _ _ _ _ _ _ h
          have hkmm : (low + g - 1) / g ≤ high / g := by omega
          have hbnd := randList_bounds ((low + g - 1) / g) (high / g) hkmm (n - 1) rng
          have hlen := randList_length ((low + g - 1) / g) (high / g) (n - 1) rng
          have hmem : ∀ v ∈ l, ∃ k, (1 ≤ k ∧ k ≤ high / g) ∧ v = g * k := by
            intro v hv
            have := hperm.mem_iff.mp hv
            obtain ⟨k, hk, hfk⟩ := List.mem_map.mp this
            rcases List.mem_cons.mp hk with rfl | hk
            · exact ⟨1, ⟨le_refl 1, hkmax⟩, hfk.symm⟩
            · have := hbnd k hk
              exact ⟨k, ⟨by omega, this.2⟩, hfk.symm⟩
          refine ⟨?_, ?_, ?_, ?_, ?_, ?_⟩
          · rw [hperm.length_eq]
            simp only [List.length_map, List.length_cons, hlen]
            omega
          · intro v hv
            obtain ⟨k, hk, rfl⟩ := hmem v hv
            constructor
            · calc low ≤ g := hg.1
                _ = g * 1 := by ring
                _ ≤ g * k := Nat.mul_le_mul_left _ hk.1
            · exact hmul_le k hk.2
          · intro t ht
            simp at ht
          · rw [gcd_of_list_perm hperm, gcd_of_list_map_mul, gcd_of_list_one_cons, Nat.mul_one]
          · intro v hv
            obtain ⟨k, _, rfl⟩ := hmem v hv
            exact Dvd.intro k rfl
          · apply hperm.mem_iff.mpr
            apply List.mem_map.mpr
            exact ⟨1, List.mem_cons_self _ _, by ring⟩
    next t' heq => exact Option.noConfusion heq
  | some t =>
    split at h
    next heq => exact Option.noConfusion heq
    next t' heq =>
      injection heq with heq
      subst heq
      split at h
      · simp at h
      next hmod =>
      rw [not_not] at hmod
      have hdvd : g ^ n ∣ t := Nat.dvd_of_mod_eq_zero hmod
      split at h
      · next hn1 =>
        split at h
        · simp at h
        next hquot =>
          rw [not_not] at hquot
          have hl : l = [g] := by
            have := congrArg Prod.fst h
            simpa using this.symm
          subst hl
          have ht : t = g := by
            have := Nat.mul_div_cancel' hdvd
            rw [hquot, Nat.mul_one] at this
            rw [← this, hn1, pow_one]
          refine ⟨by simp [hn1], ?_, ?_, ?_, ?_, ?_⟩
          · intro v hv
            simp only [List.mem_singleton] at hv
            subst hv
            exact hg
          · intro t'' ht''
            injection ht'' with ht''
            subst ht''
            simp [ht]
          · rw [gcd_of_list_cons]
            simp [gcd_of_list, Nat.gcd_zero_right]
          · intro v hv
            simp only [List.mem_singleton] at hv
            subst hv
            exact dvd_rfl
          · simp
      next hn1 =>
        split at h
        · simp at h
        next hk1 =>
          rcases hff : find_factors ((low + g - 1) / g) (high / g) (n - 1) (t / g ^ n) [] rng
            with ⟨fres, m2, r2⟩
          rw [hff] at h
          cases fres with
          | none => simp at h
          | some fs =>
            simp only at h
            have hl : l = (shuffle ((1 :: fs).map (fun k => g * k)) r2).1 := by
              have := congrArg Prod.fst h
              simpa using this.symm
            have hspec := (find_factors_spec ((low + g - 1) / g) (high / g) (by omega)
              (n - 1) (t / g ^ n) [] rng (by omega) (MemoOK_nil _ _)).2
            rw [hff] at hspec
            simp only [GoodRes] at hspec
            obtain ⟨hfl, hfb, hfp⟩ := hspec
            have hperm : l.Perm ((1 :: fs).map (fun k => g * k)) := by
              rw [hl]
              exact shuffle_perm _ _
            have hmem : ∀ v ∈ l, ∃ k, (1 ≤ k ∧ k ≤ high / g) ∧ v = g * k := by
              intro v hv
              have := hperm.mem_iff.mp hv
              obtain ⟨k, hk, hfk⟩ := List.mem_map.mp this
              rcases List.mem_cons.mp hk with rfl | hk
              · exact ⟨1, ⟨le_refl 1, hkmax⟩, hfk.symm⟩
              · have := hfb k hk
                exact ⟨k, ⟨by omega, this.2⟩, hfk.symm⟩
            refine ⟨?_, ?_, ?_, ?_, ?_, ?_⟩
            · rw [hperm.length_eq]
              simp only [List.length_map, List.length_cons, hfl]
              omega
            · intro v hv
              obtain ⟨k, hk, rfl⟩ := hmem v hv
              constructor
              · calc low ≤ g := hg.1
                  _ = g * 1 := by ring
                  _ ≤ g * k := Nat.mul_le_mul_left _ hk.1
              · exact hmul_le k hk.2
            · intro t'' ht''
              injection ht'' with ht''
              subst ht''
              rw [hperm.prod_eq, prod_map_mul_const]
              simp only [List.length_cons, List.prod_cons, Nat.one_mul, hfl, hfp]
              rw [show n - 1 + 1 = n from by omega]
              exact Nat.mul_div_cancel' hdvd
            · rw [gcd_of_list_perm hperm, gcd_of_list_map_mul, gcd_of_list_one_cons, Nat.mul_one]
            · intro v hv
              obtain ⟨k, _, rfl⟩ := hmem v hv
              exact Dvd.intro k rfl
            · apply hperm.mem_iff.mpr
              apply List.mem_map.mpr
              exact ⟨1, List.mem_cons_self _ _, by ring⟩

theorem generateCore_ok (n low high : Nat) (te gc : Option Nat) (rng rng' : Rng) (l : List Nat)
    (hlow : 1 ≤ low) (hhi : low ≤ high)
    (h : generateCore n low high te gc rng = (.ok l, rng')) :
    l.length = n ∧ (∀ v ∈ l, low ≤ v ∧ v ≤ high) ∧
    (∀ t, te = some t → l.prod = t) ∧
    (∀ g, gc = some g → gcd_of_list l = g ∧ (∀ v ∈ l, g ∣ v) ∧ g ∈ l) := by
  unfold generateCore at h
  split at h
  · next hn0 =>
    split at h
    · simp at h
    next hte =>
      split at h
      · simp at h
      next hgc =>
        have hl : l = [] := by
          have := congrArg Prod.fst h
          simpa using this.symm
        subst hl
        refine ⟨by simp [hn0], by simp, ?_, ?_⟩
        · intro t ht
          rw [ht] at hte
          simp [optNe1] at hte
          simp [hte]
        · intro g hg
          rw [hg] at hgc
          simp at hgc
  next hn0 =>
    have hn : 1 ≤ n := by omega
    cases te with
    | none =>
      cases gc with
      | none =>
        have hl : l = (randList low high n rng).1 := by
          have := congrArg Prod.fst h
          simpa using this.symm
        subst hl
        refine ⟨randList_length _ _ _ _, randList_bounds _ _ hhi _ _, ?_, ?_⟩
        · intro t ht
          simp at ht
        · intro g hg
          simp at hg
      | some g =>
        obtain ⟨ha, hb, _, hd⟩ := scenarioGcd_ok n low high g none rng rng' l hlow hn h
        refine ⟨ha, hb, ?_, ?_⟩
        · intro t ht
          simp at ht
        · intro g' hg'
          injection hg' with hg'
          subst hg'
          exact hd
    | some t =>
      cases gc with
      | none =>
        obtain ⟨ha, hb, hc⟩ := scenarioTotal_ok n low high t rng rng' l hlow hn h
        refine ⟨ha, hb, ?_, ?_⟩
        · intro t' ht'
          injection ht' with ht'
          subst ht'
          exact hc
        · intro g hg
          simp at hg
      | some g =>
        obtain ⟨ha, hb, hc, hd⟩ := scenarioGcd_ok n low high g (some t) rng rng' l hlow hn h
        refine ⟨ha, hb, ?_, ?_⟩
        · intro t' ht'
          exact hc t' ht'
        · intro g' hg'
          injection hg' with hg'
          subst hg'
          exact hd

theorem optLt1_false_iff {o : Option Int} : optLt1 o = false ↔ ∀ t, o = some t → 1 ≤ t := by
  cases o with
  | none =>
    simp [optLt1]
  | some t =>
    simp only [optLt1, decide_eq_false_iff_not, Int.not_lt, Option.some.injEq]
    constructor
    · intro h t' ht'
      subst ht'
      exact h
    · intro h
      exact h t rfl

theorem generate_ok_int (nd lo hi : Int) (te gc : Option Int) (rng rng' : Rng) (l : List Nat)
    (h : generate_random_dimensions nd lo hi te gc rng = (.ok l, rng')) :
    0 ≤ nd ∧ 1 ≤ lo ∧ lo ≤ hi ∧
    (∀ t, te = some t → 1 ≤ t) ∧ (∀ g, gc = some g → 1 ≤ g) ∧
    generateCore nd.toNat lo.toNat hi.toNat (te.map Int.toNat) (gc.map Int.toNat) rng
      = (.ok l, rng') := by
  unfold generate_random_dimensions at h
  split at h
  · simp at h
  next h1 =>
  split at h
  · simp at h
  next h2 =>
  split at h
  · simp at h
  next h3 =>
  split at h
  · simp at h
  next h4 =>
  split at h
  · simp at h
  next h5 =>
  rw [Bool.not_eq_true] at h4 h5
  exact ⟨by omega, by omega, by omega, optLt1_false_iff.mp h4, optLt1_false_iff.mp h5, h⟩

/-- Claim C1: every call to `generate_random_dimensions` with valid arguments
that returns (does not raise) yields a tuple of length exactly
`num_dimensions` whose every entry `v` satisfies `min_size ≤ v ≤ max_size`. -/
theorem claim_C1_length_and_bounds (num_dimensions min_size max_size : Int)
    (total_elements gcd_constraint : Option Int) (rng rng' : Rng) (l : List Nat)
    (h : generate_random_dimensions num_dimensions min_size max_size
      total_elements gcd_constraint rng = (.ok l, rng')) :
    (l.length : Int) = num_dimensions ∧
    ∀ v ∈ l, min_size ≤ (v : Int) ∧ (v : Int) ≤ max_size := by
  obtain ⟨hnd, hlo, hhi, _, _, hcore⟩ :=
    generate_ok_int _ _ _ _ _ _ _ _ h
  obtain ⟨hlen, hbnd, _, _⟩ :=
    generateCore_ok _ _ _ _ _ _ _ _ (by omega) (by omega) hcore
  constructor
  · rw [hlen]
    omega
  · intro v hv
    have := hbnd v hv
    omega

theorem claim_C1_witness :
    ((List.length ([5, 5, 5] : List Nat) : Int) = 3 ∧
      ∀ v ∈ ([5, 5, 5] : List Nat), (5 : Int) ≤ (v : Int) ∧ (v : Int) ≤ 5) :=
  claim_C1_length_and_bounds 3 5 5 none none [] [] [5, 5, 5] (by rfl)

/-- Claim C2: whenever `total_elements` is provided and the call returns a
tuple, the product of the returned entries equals `total_elements` exactly
(the empty product being `1` in the `num_dimensions = 0` case). -/
theorem claim_C2_product (num_dimensions min_size max_size t : Int)
    (gcd_constraint : Option Int) (rng rng' : Rng) (l : List Nat)
    (h : generate_random_dimensions num_dimensions min_size max_size
      (some t) gcd_constraint rng = (.ok l, rng')) :
    (l.prod : Int) = t := by
  obtain ⟨hnd, hlo, hhi, hte, _, hcore⟩ :=
    generate_ok_int _ _ _ _ _ _ _ _ h
  obtain ⟨_, _, hprod, _⟩ :=
    generateCore_ok _ _ _ _ _ _ _ _ (by omega) (by omega) hcore
  have h1 := hprod t.toNat (by simp)
  have h2 := hte t rfl
  omega

theorem claim_C2_witness : ((List.prod [2, 2] : Nat) : Int) = 4 :=
  claim_C2_product 2 2 2 4 none [] [] [2, 2] (by rfl)

/-- Claim C3: whenever `gcd_constraint` is provided and the call returns a
tuple, the greatest common divisor of the returned entries equals
`gcd_constraint` exactly; moreover every entry is a multiple of
`gcd_constraint` and some entry equals it. -/
theorem claim_C3_gcd (num_dimensions min_size max_size g : Int)
    (total_elements : Option Int) (rng rng' : Rng) (l : List Nat)
    (h : generate_random_dimensions num_dimensions min_size max_size
      total_elements (some g) rng = (.ok l, rng')) :
    (gcd_of_list l : Int) = g ∧ (∀ v ∈ l, g.toNat ∣ v) ∧ g.toNat ∈ l := by
  obtain ⟨hnd, hlo, hhi, _, hgc, hcore⟩ :=
    generate_ok_int _ _ _ _ _ _ _ _ h
  obtain ⟨_, _, _, hg⟩ :=
    generateCore_ok _ _ _ _ _ _ _ _ (by omega) (by omega) hcore
  obtain ⟨hg1, hg2, hg3⟩ := hg g.toNat (by simp)
  have h2 := hgc g rfl
  exact ⟨by omega, hg2, hg3⟩

theorem claim_C3_witness :
    ((gcd_of_list [5] : Nat) : Int) = 5 ∧
      (∀ v ∈ [5], (5 : Int).toNat ∣ v) ∧ (5 : Int).toNat ∈ [5] :=
  claim_C3_gcd 1 5 15 5 none [] [] [5] (by rfl)

/-! ### Completeness of scenario 5 (product constraint only) -/

theorem scenarioTotal_complete (n low high t : Nat) (rng : Rng)
    (hlow : 1 ≤ low) (hn : 1 ≤ n) :
    ((∃ msg, (scenarioTotal n low high t rng).1 = .error msg) ↔
      ¬ ∃ l, IsShape low high n t l) := by
  unfold scenarioTotal
  split
  · next hn1 =>
    subst hn1
    split
    · next hcond =>
      constructor
      · rintro ⟨msg, hmsg⟩
        simp at hmsg
      · intro hno
        exfalso
        apply hno
        refine ⟨[t], rfl, ?_, by simp⟩
        intro v hv
        simp only [List.mem_singleton] at hv
        subst hv
        exact hcond
    · next hcond =>
      constructor
      · intro _
        rintro ⟨l, hl1, hl2, hl3⟩
        match l, hl1 with
        | [v], _ =>
          simp only [List.prod_cons, List.prod_nil, Nat.mul_one] at hl3
          subst hl3
          exact hcond (hl2 _ (List.mem_singleton_self _))
      · intro _
        exact ⟨_, rfl⟩
  · next hn1 =>
    split
    · next hbnd =>
      constructor
      · intro _
        rintro ⟨l, hl1, hl2, hl3⟩
        have hb := prod_bounds low high l hl2
        rw [hl1, hl3] at hb
        omega
      · intro _
        exact ⟨_, rfl⟩
    · next hbnd =>
      rcases hff : find_factors low high n t [] rng with ⟨fres, m2, r2⟩
      have hspec := (find_factors_spec low high hlow n t [] rng hn (MemoOK_nil _ _)).2
      rw [hff] at hspec
      cases fres with
      | some fs =>
        simp only [GoodRes] at hspec
        constructor
        · rintro ⟨msg, hmsg⟩
          simp at hmsg
        · intro hno
          exact absurd ⟨fs, hspec⟩ hno
      | none =>
        simp only [GoodRes] at hspec
        constructor
        · intro _
          exact hspec
        · intro _
          exact ⟨_, rfl⟩

/-- Claim C5: with valid arguments, `num_dimensions ≥ 1`, a product target and
no gcd constraint, the call raises exactly when no tuple of `num_dimensions`
integers of `[min_size, max_size]` has product `total_elements` (the search,
memoization and range pruning included, is complete), and any returned tuple
is such a shape. -/
theorem claim_C5_total_search_complete
    (num_dimensions min_size max_size total_elements : Int) (rng : Rng)
    (h1 : 1 ≤ num_dimensions) (h2 : 1 ≤ min_size) (h3 : min_size ≤ max_size)
    (h4 : 1 ≤ total_elements) :
    ((∃ msg, (generate_random_dimensions num_dimensions min_size max_size
        (some total_elements) none rng).1 = .error msg) ↔
      ¬ ∃ l, IsShape min_size.toNat max_size.toNat num_dimensions.toNat
        total_elements.toNat l)
    ∧ ∀ l rng', generate_random_dimensions num_dimensions min_size max_size
        (some total_elements) none rng = (.ok l, rng') →
        IsShape min_size.toNat max_size.toNat num_dimensions.toNat
          total_elements.toNat l := by
  have hred : generate_random_dimensions num_dimensions min_size max_size
      (some total_elements) none rng
      = scenarioTotal num_dimensions.toNat min_size.toNat max_size.toNat
          total_elements.toNat rng := by
    unfold generate_random_dimensions
    rw [if_neg (by omega : ¬(num_dimensions < 0)),
      if_neg (by omega : ¬(min_size < 1)),
      if_neg (by omega : ¬(max_size < min_size)),
      if_neg (by simp only [optLt1, decide_eq_true_eq]; omega :
        ¬(optLt1 (some total_elements) = true)),
      if_neg (by simp [optLt1] : ¬(optLt1 (none : Option Int) = true))]
    unfold generateCore
    rw [if_neg (by omega : ¬(num_dimensions.toNat = 0))]
    rfl
  rw [hred]
  constructor
  · exact scenarioTotal_complete _ _ _ _ rng (by omega) (by omega)
  · intro l rng' hok
    exact scenarioTotal_ok _ _ _ _ _ _ _ (by omega) (by omega) hok

theorem claim_C5_witness : ¬ ∃ l, IsShape 1 10 1 42 l :=
  (claim_C5_total_search_complete 1 1 10 42 [] (by omega) (by omega) (by omega)
    (by omega)).1.mp
    ⟨"total_elements is outside the admissible size bounds for 1D", by rfl⟩

/-! ### Reduction lemmas for the error-handling claims -/

theorem generate_reduce (nd lo hi : Int) (te gc : Option Int) (rng : Rng)
    (h1 : ¬(nd < 0)) (h2 : ¬(lo < 1)) (h3 : ¬(hi < lo))
    (h4 : optLt1 te = false) (h5 : optLt1 gc = false) :
    generate_random_dimensions nd lo hi te gc rng
      = generateCore nd.toNat lo.toNat hi.toNat (te.map Int.toNat) (gc.map Int.toNat) rng := by
  unfold generate_random_dimensions
  rw [if_neg h1, if_neg h2, if_neg h3, if_neg (by simp [h4]), if_neg (by simp [h5])]

theorem generateCore_gcd_reduce (n low high g : Nat) (te : Option Nat) (rng : Rng)
    (hn : ¬(n = 0)) :
    generateCore n low high te (some g) rng = scenarioGcd n low high g te rng := by
  unfold generateCore
  rw [if_neg hn]
  cases te <;> rfl

/-- Claim C6: with valid arguments, `num_dimensions ≥ 1` and a gcd constraint
outside `[min_size, max_size]`, the call fails with the infeasibility error of
line 183, for every random source and whether or not `total_elements` is
given, consuming no randomness. -/
theorem claim_C6_gcd_out_of_bounds (num_dimensions min_size max_size g : Int)
    (total_elements : Option Int) (rng : Rng)
    (h1 : 1 ≤ num_dimensions) (h2 : 1 ≤ min_size) (h3 : min_size ≤ max_size)
    (h4 : ∀ t, total_elements = some t → 1 ≤ t) (h5 : 1 ≤ g)
    (h6 : ¬ (min_size ≤ g ∧ g ≤ max_size)) :
    generate_random_dimensions num_dimensions min_size max_size
      total_elements (some g) rng
      = (.error "At least one dimension must be able to equal gcd_constraint", rng) := by
  rw [generate_reduce _ _ _ _ _ _ (by omega) (by omega) (by omega)
    (optLt1_false_iff.mpr h4)
    (optLt1_false_iff.mpr (by intro t ht; injection ht with ht; omega))]
  rw [show (some g).map Int.toNat = some g.toNat from rfl]
  rw [generateCore_gcd_reduce _ _ _ _ _ _ (by omega)]
  unfold scenarioGcd
  rw [if_pos]
  rw [not_and_or]
  rcases (by omega : g < min_size ∨ max_size < g) with hc | hc
  · left
    omega
  · right
    omega

theorem claim_C6_witness : generate_random_dimensions 1 2 3 none (some 5) []
    = (.error "At least one dimension must be able to equal gcd_constraint", []) :=
  claim_C6_gcd_out_of_bounds 1 2 3 5 none [] (by omega) (by omega) (by omega)
    (by intro t ht; simp at ht) (by omega) (by omega)

theorem scenarioGcd_some_mod_ne (n low high g t : Nat) (rng : Rng)
    (hg : low ≤ g ∧ g ≤ high) (hkk : ¬((low + g - 1) / g > high / g))
    (hmod : t % g ^ n ≠ 0) :
    scenarioGcd n low high g (some t) rng
      = (.error "total_elements must be divisible by gcd_constraint ** num_dimensions", rng) := by
  unfold scenarioGcd
  rw [if_neg (not_not_intro hg), if_neg hkk]
  show (if t % g ^ n ≠ 0 then
      (Except.error "total_elements must be divisible by gcd_constraint ** num_dimensions", rng)
    else
      if n = 1 then
        if t / g ^ n ≠ 1 then
          (Except.error "No valid single-dimension shape exists for the given product and gcd",
            rng)
        else (Except.ok [g], rng)
      else if (low + g - 1) / g > 1 then
        (Except.error "Size bounds prevent any dimension equalling the gcd", rng)
      else
        match find_factors ((low + g - 1) / g) (high / g) (n - 1) (t / g ^ n) [] rng with
        | (some fs, _, r1) =>
          (Except.ok (shuffle ((1 :: fs).map (fun k => g * k)) r1).1,
            (shuffle ((1 :: fs).map (fun k => g * k)) r1).2)
        | (none, _, r1) =>
          (Except.error "No shape satisfies the combined product/gcd constraints", r1))
    = (Except.error "total_elements must be divisible by gcd_constraint ** num_dimensions", rng)
  rw [if_pos hmod]

/-- Claim C7: with valid arguments, `num_dimensions ≥ 1`, both optional
constraints given and the gcd constraint inside the bounds, a product target
that `gcd_constraint ^ num_dimensions` does not divide raises the specific
mutual-incompatibility error of line 229 before any search, consuming no
randomness. -/
theorem claim_C7_joint_divisibility (num_dimensions min_size max_size t g : Int)
    (rng : Rng)
    (h1 : 1 ≤ num_dimensions) (h2 : 1 ≤ min_size) (h3 : min_size ≤ max_size)
    (h4 : 1 ≤ t) (h5 : min_size ≤ g ∧ g ≤ max_size)
    (h6 : ¬ (g ^ num_dimensions.toNat ∣ t)) :
    generate_random_dimensions num_dimensions min_size max_size (some t) (some g) rng
      = (.error "total_elements must be divisible by gcd_constraint ** num_dimensions", rng) := by
  have hg1 : 1 ≤ g := by omega
  rw [generate_reduce _ _ _ _ _ _ (by omega) (by omega) (by omega)
    (optLt1_false_iff.mpr (by intro t' ht'; injection ht' with ht'; omega))
    (optLt1_false_iff.mpr (by intro g' hg'; injection hg' with hg'; omega))]
  rw [show (some t).map Int.toNat = some t.toNat from rfl,
    show (some g).map Int.toNat = some g.toNat from rfl]
  rw [generateCore_gcd_reduce _ _ _ _ _ _ (by omega)]
  have hmodNat : t.toNat % g.toNat ^ num_dimensions.toNat ≠ 0 := by
    intro hmod0
    apply h6
    have hdvd := Nat.dvd_of_mod_eq_zero hmod0
    have hcast : ((g.toNat : Int)) ^ num_dimensions.toNat ∣ (t.toNat : Int) := by
      exact_mod_cast hdvd
    rwa [Int.toNat_of_nonneg (by omega : (0 : Int) ≤ g),
      Int.toNat_of_nonneg (by omega : (0 : Int) ≤ t)] at hcast
  apply scenarioGcd_some_mod_ne
  · omega
  · have hkmin : (min_size.toNat + g.toNat - 1) / g.toNat = 1 :=
      kmin_eq_one (by omega) (by omega)
    have hkmax : 1 ≤ max_size.toNat / g.toNat := one_le_kmax (by omega) (by omega)
    omega
  · exact hmodNat

theorem claim_C7_witness : generate_random_dimensions 2 1 10 (some 6) (some 2) []
    = (.error "total_elements must be divisible by gcd_constraint ** num_dimensions", []) :=
  claim_C7_joint_divisibility 2 1 10 6 2 [] (by omega) (by omega) (by omega)
    (by omega) (by omega) (by decide)

/-- Claim C8: with valid arguments and `num_dimensions = 0`, the call returns
the empty tuple when `total_elements` is absent or `1` and no gcd constraint
is given; it raises when `total_elements` is given and differs from `1`, and
it raises whenever `gcd_constraint` is given. -/
theorem claim_C8_zero_dimensions (min_size max_size : Int) (rng : Rng)
    (h2 : 1 ≤ min_size) (h3 : min_size ≤ max_size) :
    (∀ te : Option Int, (te = none ∨ te = some 1) →
      generate_random_dimensions 0 min_size max_size te none rng = (.ok [], rng)) ∧
    (∀ t : Int, 1 ≤ t → t ≠ 1 →
      generate_random_dimensions 0 min_size max_size (some t) none rng
        = (.error "total_elements must be 1 when num_dimensions is 0", rng)) ∧
    (∀ (g : Int) (te : Option Int), 1 ≤ g → (∀ t, te = some t → 1 ≤ t) →
      ∃ msg, generate_random_dimensions 0 min_size max_size te (some g) rng
        = (.error msg, rng)) := by
  refine ⟨?_, ?_, ?_⟩
  · rintro te (rfl | rfl)
    · rw [generate_reduce _ _ _ _ _ _ (by omega) (by omega) (by omega)
        (by simp [optLt1]) (by simp [optLt1])]
      unfold generateCore
      rw [if_pos (show Int.toNat 0 = 0 from rfl)]
      rfl
    · rw [generate_reduce _ _ _ _ _ _ (by omega) (by omega) (by omega)
        (by simp [optLt1]) (by simp [optLt1])]
      unfold generateCore
      rw [if_pos (show Int.toNat 0 = 0 from rfl)]
      rfl
  · intro t ht1 ht2
    rw [generate_reduce _ _ _ _ _ _ (by omega) (by omega) (by omega)
      (optLt1_false_iff.mpr (by intro t' ht'; injection ht' with ht'; omega))
      (by simp [optLt1])]
    unfold generateCore
    rw [if_pos (show Int.toNat 0 = 0 from rfl)]
    rw [if_pos]
    simp only [Option.map_some', optNe1, decide_eq_true_eq]
    omega
  · intro g te hg hte
    rcases te with _ | t
    · refine ⟨"gcd_constraint makes no sense for 0 dimensions", ?_⟩
      rw [generate_reduce _ _ _ _ _ _ (by omega) (by omega) (by omega)
        (by simp [optLt1])
        (optLt1_false_iff.mpr (by intro g' hg'; injection hg' with hg'; omega))]
      unfold generateCore
      rw [if_pos (show Int.toNat 0 = 0 from rfl)]
      rw [if_neg (by simp [optNe1])]
      rw [if_pos (by simp)]
    · have ht := hte t rfl
      by_cases ht1 : t.toNat = 1
      · refine ⟨"gcd_constraint makes no sense for 0 dimensions", ?_⟩
        rw [generate_reduce _ _ _ _ _ _ (by omega) (by omega) (by omega)
          (optLt1_false_iff.mpr (by intro t' ht'; injection ht' with ht'; omega))
          (optLt1_false_iff.mpr (by intro g' hg'; injection hg' with hg'; omega))]
        unfold generateCore
        rw [if_pos (show Int.toNat 0 = 0 from rfl)]
        rw [if_neg (by simp [optNe1, ht1])]
        rw [if_pos (by simp)]
      · refine ⟨"total_elements must be 1 when num_dimensions is 0", ?_⟩
        rw [generate_reduce _ _ _ _ _ _ (by omega) (by omega) (by omega)
          (optLt1_false_iff.mpr (by intro t' ht'; injection ht' with ht'; omega))
          (optLt1_false_iff.mpr (by intro g' hg'; injection hg' with hg'; omega))]
        unfold generateCore
        rw [if_pos (show Int.toNat 0 = 0 from rfl)]
        rw [if_pos (by simp [optNe1, ht1])]

theorem claim_C8_witness :
    generate_random_dimensions 0 1 10 none none [] = (.ok [], []) ∧
    generate_random_dimensions 0 1 10 (some 5) none []
      = (.error "total_elements must be 1 when num_dimensions is 0", []) :=
  ⟨(claim_C8_zero_dimensions 1 10 [] (by omega) (by omega)).1 none (Or.inl rfl),
    (claim_C8_zero_dimensions 1 10 [] (by omega) (by omega)).2.1 5 (by omega) (by omega)⟩

/-! ### Which error messages each stage can produce -/

theorem generateCore_plain_reduce (n low high : Nat) (rng : Rng) (hn : ¬(n = 0)) :
    generateCore n low high none none rng
      = (.ok (randList low high n rng).1, (randList low high n rng).2) := by
  unfold generateCore
  rw [if_neg hn]

theorem generateCore_total_reduce (n low high t : Nat) (rng : Rng) (hn : ¬(n = 0)) :
    generateCore n low high (some t) none rng = scenarioTotal n low high t rng := by
  unfold generateCore
  rw [if_neg hn]

theorem retryLoop_error (g kmin kmax n fuel : Nat) (rng : Rng) (msg : String)
    (h : (retryLoop g kmin kmax n fuel rng).1 = .error msg) :
    msg = "Unable to construct shape satisfying the gcd constraint" := by
  cases fuel with
  | zero =>
    simp [retryLoop] at h
    exact h.symm
  | succ k =>
    rw [retryLoop_succ_eq] at h
    simp at h

theorem scenarioTotal_error_msgs (n low high t : Nat) (rng : Rng) (msg : String)
    (h : (scenarioTotal n low high t rng).1 = .error msg) :
    msg = "total_elements is outside the admissible size bounds for 1D" ∨
    msg = "total_elements cannot be realised with the given size bounds" ∨
    msg = "No shape satisfies the given total_elements and size bounds" := by
  unfold scenarioTotal at h
  split at h
  · next hn1 =>
    split at h
    · simp at h
    · next hcond =>
      left
      simp at h
      exact h.symm
  next hn1 =>
    split at h
    · next hcond =>
      right; left
      simp at h
      exact h.symm
    next hcond =>
      rcases hff : find_factors low high n t [] rng with ⟨fres, m2, r2⟩
      rw [hff] at h
      cases fres with
      | some fs => simp at h
      | none =>
        right; right
        simp at h
        exact h.symm

theorem scenarioGcd_error_msgs (n low high g : Nat) (te : Option Nat) (rng : Rng) (msg : String)
    (hlow : 1 ≤ low)
    (h : (scenarioGcd n low high g te rng).1 = .error msg) :
    msg = "At least one dimension must be able to equal gcd_constraint" ∨
    msg = "total_elements must be divisible by gcd_constraint ** num_dimensions" ∨
    msg = "No valid single-dimension shape exists for the given product and gcd" ∨
    msg = "No shape satisfies the combined product/gcd constraints" := by
  unfold scenarioGcd at h
  split at h
  · next hcond =>
    left
    simp at h
    exact h.symm
  next hg =>
  rw [not_not] at hg
  have hkmin := kmin_eq_one hlow hg.1
  have hkmax := one_le_kmax (by omega : 1 ≤ g) hg.2
  split at h
  · next hcond =>
    exfalso
    rw [hkmin] at hcond
    omega
  next hkk =>
  cases te with
  | none =>
    split at h
    case _ =>
      split at h
      · simp at h
      next hn1 =>
        split at h
        · next hcond =>
          exfalso
          rw [hkmin] at hcond
          omega
        next hcond =>
          rw [show (1000 : Nat) = 999 + 1 from rfl, retryLoop_succ_eq] at h
          simp at h
    next t' heq => exact Option.noConfusion heq
  | some t =>
    split at h
    next heq => exact Option.noConfusion heq
    next t' heq =>
      injection heq with heq
      subst heq
      split at h
      · next hcond =>
        right; left
        simp at h
        exact h.symm
      next hmod =>
        split at h
        · next hn1 =>
          split at h
          · next hcond =>
            right; right; left
            simp at h
            exact h.symm
          · simp at h
        next hn1 =>
          split at h
          · next hcond =>
            exfalso
            rw [hkmin] at hcond
            omega
          next hcond =>
            rcases hff : find_factors ((low + g - 1) / g) (high / g) (n - 1) (t / g ^ n) [] rng
              with ⟨fres, m2, r2⟩
            rw [hff] at h
            cases fres with
            | some fs => simp at h
            | none =>
              right; right; right
              simp at h
              exact h.symm

theorem generateCore_error_msgs (n low high : Nat) (te gc : Option Nat) (rng : Rng) (msg : String)
    (hlow : 1 ≤ low)
    (h : (generateCore n low high te gc rng).1 = .error msg) :
    msg = "total_elements must be 1 when num_dimensions is 0" ∨
    msg = "gcd_constraint makes no sense for 0 dimensions" ∨
    msg = "At least one dimension must be able to equal gcd_constraint" ∨
    msg = "total_elements must be divisible by gcd_constraint ** num_dimensions" ∨
    msg = "No valid single-dimension shape exists for the given product and gcd" ∨
    msg = "No shape satisfies the combined product/gcd constraints" ∨
    msg = "total_elements is outside the admissible size bounds for 1D" ∨
    msg = "total_elements cannot be realised with the given size bounds" ∨
    msg = "No shape satisfies the given total_elements and size bounds" := by
  unfold generateCore at h
  split at h
  · next hn0 =>
    split at h
    · next hcond =>
      left
      simp at h
      exact h.symm
    next hcond =>
      split at h
      · next hcond2 =>
        right; left
        simp at h
        exact h.symm
      · simp at h
  next hn0 =>
    cases te with
    | none =>
      cases gc with
      | none =>
        rw [show (match (none : Option Nat), (none : Option Nat) with
          | none, none =>
            ((.ok (randList low high n rng).1 : Except String (List Nat)),
              (randList low high n rng).2)
          | te, some g => scenarioGcd n low high g te rng
          | some t, none => scenarioTotal n low high t rng)
          = ((.ok (randList low high n rng).1 : Except String (List Nat)),
              (randList low high n rng).2) from rfl] at h
        simp at h
      | some g =>
        have hh : (scenarioGcd n low high g none rng).1 = .error msg := h
        rcases scenarioGcd_error_msgs _ _ _ _ _ _ _ hlow hh with rfl | rfl | rfl | rfl <;> simp
    | some t =>
      cases gc with
      | none =>
        have hh : (scenarioTotal n low high t rng).1 = .error msg := h
        rcases scenarioTotal_error_msgs _ _ _ _ _ _ hh with rfl | rfl | rfl <;> simp
      | some g =>
        have hh : (scenarioGcd n low high g (some t) rng).1 = .error msg := h
        rcases scenarioGcd_error_msgs _ _ _ _ _ _ _ hlow hh with rfl | rfl | rfl | rfl <;> simp

/-- Claim C9: the call raises one of the five invalid-argument errors exactly
when `num_dimensions < 0`, `min_size < 1`, `max_size < min_size`,
`total_elements < 1` (when given) or `gcd_constraint < 1` (when given); the
raise happens before any search, deterministically, with the random source
untouched. -/
theorem claim_C9_validation (num_dimensions min_size max_size : Int)
    (total_elements gcd_constraint : Option Int) :
    (∃ msg, msg ∈ (["num_dimensions cannot be negative",
        "min_size must be at least 1",
        "max_size must be >= min_size",
        "total_elements must be at least 1",
        "gcd_constraint must be at least 1"] : List String) ∧
      ∀ rng, generate_random_dimensions num_dimensions min_size max_size
        total_elements gcd_constraint rng = (.error msg, rng)) ↔
    (num_dimensions < 0 ∨ min_size < 1 ∨ max_size < min_size ∨
      (∃ t, total_elements = some t ∧ t < 1) ∨
      (∃ g, gcd_constraint = some g ∧ g < 1)) := by
  constructor
  · rintro ⟨msg, hmem, hall⟩
    by_contra hnot
    push_neg at hnot
    obtain ⟨hn1, hn2, hn3, hn4, hn5⟩ := hnot
    have h := hall []
    rw [generate_reduce _ _ _ _ _ _ (by omega) (by omega) (by omega)
      (optLt1_false_iff.mpr (fun t ht => by have := hn4 t ht; omega))
      (optLt1_false_iff.mpr (fun g hg => by have := hn5 g hg; omega))] at h
    have h' : (generateCore num_dimensions.toNat min_size.toNat max_size.toNat
        (total_elements.map Int.toNat) (gcd_constraint.map Int.toNat) []).1
        = .error msg := by
      rw [h]
    have hmem2 := generateCore_error_msgs _ _ _ _ _ _ _ (by omega) h'
    rcases hmem2 with rfl | rfl | rfl | rfl | rfl | rfl | rfl | rfl | rfl <;> simp at hmem
  · intro hcond
    by_cases hc1 : num_dimensions < 0
    · refine ⟨"num_dimensions cannot be negative", by simp, fun rng => ?_⟩
      unfold generate_random_dimensions
      rw [if_pos hc1]
    by_cases hc2 : min_size < 1
    · refine ⟨"min_size must be at least 1", by simp, fun rng => ?_⟩
      unfold generate_random_dimensions
      rw [if_neg hc1, if_pos hc2]
    by_cases hc3 : max_size < min_size
    · refine ⟨"max_size must be >= min_size", by simp, fun rng => ?_⟩
      unfold generate_random_dimensions
      rw [if_neg hc1, if_neg hc2, if_pos hc3]
    by_cases hc4 : optLt1 total_elements = true
    · refine ⟨"total_elements must be at least 1", by simp, fun rng => ?_⟩
      unfold generate_random_dimensions
      rw [if_neg hc1, if_neg hc2, if_neg hc3, if_pos hc4]
    by_cases hc5 : optLt1 gcd_constraint = true
    · refine ⟨"gcd_constraint must be at least 1", by simp, fun rng => ?_⟩
      unfold generate_random_dimensions
      rw [if_neg hc1, if_neg hc2, if_neg hc3, if_neg hc4, if_pos hc5]
    · exfalso
      rw [Bool.not_eq_true] at hc4 hc5
      have h4 := optLt1_false_iff.mp hc4
      have h5 := optLt1_false_iff.mp hc5
      rcases hcond with h | h | h | ⟨t, ht, hlt⟩ | ⟨g, hg, hlt⟩
      · exact hc1 h
      · exact hc2 h
      · exact hc3 h
      · have := h4 t ht
        omega
      · have := h5 g hg
        omega

theorem claim_C9_witness :
    ∃ msg, msg ∈ (["num_dimensions cannot be negative",
        "min_size must be at least 1",
        "max_size must be >= min_size",
        "total_elements must be at least 1",
        "gcd_constraint must be at least 1"] : List String) ∧
      ∀ rng, generate_random_dimensions (-1) 1 10 none none rng = (.error msg, rng) :=
  (claim_C9_validation (-1) 1 10 none none).mpr (Or.inl (by omega))

/-- Claim C10: once execution passes the guard `min_size ≤ gcd_constraint ≤
max_size`, the scaled lower bound `ceil(min_size / g)` equals `1` and is at
most the scaled upper bound; consequently the errors of lines 191, 204, 241
and 217 of the source are unreachable from `generate_random_dimensions`, and
the retry loop returns on its first iteration. -/
theorem claim_C10_gcd_guards_unreachable :
    (∀ low g high : Nat, 1 ≤ low → low ≤ g → g ≤ high →
      (low + g - 1) / g = 1 ∧ 1 ≤ high / g) ∧
    (∀ (num_dimensions min_size max_size : Int) (total_elements gcd_constraint : Option Int)
      (rng : Rng) (msg : String),
      (generate_random_dimensions num_dimensions min_size max_size
        total_elements gcd_constraint rng).1 = .error msg →
      msg ≠ "No multiple of gcd_constraint fits into size bounds" ∧
      msg ≠ "Size bounds prevent any dimension equalling the gcd" ∧
      msg ≠ "Unable to construct shape satisfying the gcd constraint") ∧
    (∀ g kmin kmax n fuel rng, retryLoop g kmin kmax n (fuel + 1) rng
        = retryLoop g kmin kmax n 1 rng ∧
      ∃ dims rng', retryLoop g kmin kmax n 1 rng = (.ok dims, rng')) := by
  refine ⟨?_, ?_, ?_⟩
  · intro low g high h1 h2 h3
    exact ⟨kmin_eq_one h1 h2, one_le_kmax (by omega) h3⟩
  · intro nd lo hi te gc rng msg h
    unfold generate_random_dimensions at h
    split at h
    · simp at h
      subst h
      exact ⟨by decide, by decide, by decide⟩
    next h1 =>
    split at h
    · simp at h
      subst h
      exact ⟨by decide, by decide, by decide⟩
    next h2 =>
    split at h
    · simp at h
      subst h
      exact ⟨by decide, by decide, by decide⟩
    next h3 =>
    split at h
    · simp at h
      subst h
      exact ⟨by decide, by decide, by decide⟩
    next h4 =>
    split at h
    · simp at h
      subst h
      exact ⟨by decide, by decide, by decide⟩
    next h5 =>
    have hmem := generateCore_error_msgs _ _ _ _ _ _ _ (by omega) h
    rcases hmem with rfl | rfl | rfl | rfl | rfl | rfl | rfl | rfl | rfl <;>
      exact ⟨by decide, by decide, by decide⟩
  · intro g kmin kmax n fuel rng
    exact ⟨retryLoop_first_iteration g kmin kmax n fuel rng,
      ⟨_, _, retryLoop_succ_eq g kmin kmax n 0 rng⟩⟩

theorem claim_C10_witness : (3 + 5 - 1) / 5 = 1 ∧ 1 ≤ 7 / 5 :=
  claim_C10_gcd_guards_unreachable.1 3 5 7 (by omega) (by omega) (by omega)

set_option maxRecDepth 100000 in
/-- Claim C4 is false of the code (and the code contradicts its own
docstring, which promises uniform selection): on the input
`num_dimensions = 3, min_size = 1, max_size = 8, total_elements = 8`, both
`[2, 2, 2]` and `[1, 2, 4]` are valid shapes, yet over the 3456 equally
likely seed traces the greedy randomized descent returns `[2, 2, 2]` on 288
traces (probability 1/12) and `[1, 2, 4]` on 312 traces (probability
13/144), so the returned tuple is not uniform over the solution set. -/
theorem claim_C4_not_uniform :
    IsShape 1 8 3 8 [2, 2, 2] ∧ IsShape 1 8 3 8 [1, 2, 4] ∧
    c4Space.length = 3456 ∧
    (c4Space.map c4Outcome).count [2, 2, 2] = 288 ∧
    (c4Space.map c4Outcome).count [1, 2, 4] = 312 := by
  refine ⟨by decide, by decide, by simp [c4Space], by decide, by decide⟩
